import Mathlib

/-!
Shallow embedding of the core dispatch engine of shopify-webhook-go:
the topic Router (router.go), the in-memory idempotency store, the
worker pool with retry/backoff, and the orchestrating Handler
(middleware.go).  Handlers are represented abstractly by a type `H`
with a semantics function `sem : H → Event → Option GoError`
(Go handlers return `error`, with `nil` modelled as `none`), which lets
theorems speak about *which* handler was invoked.  Side effects
(handler invocations, error-observer callbacks) are recorded in
explicit traces.
-/

namespace ShopifyWebhook

/-- Metadata of a webhook event, mirroring `Metadata` in common.go.
`triggeredAt` stands in for the Go `time.Time` as an integer instant. -/
structure Metadata where
  topic : String
  hmacSHA256 : String
  shopDomain : String
  webhookID : String
  eventID : String
  triggeredAt : Int
  apiVersion : String
deriving DecidableEq

/-- A parsed and verified webhook event, mirroring `Event` in common.go.
The raw body bytes are modelled as a list of naturals. -/
structure Event where
  metadata : Metadata
  rawBody : List Nat
deriving DecidableEq

/-- The error values of errors.go that the dispatch engine distinguishes,
plus `handlerErr` for application-handler failures (arbitrary Go errors). -/
inductive GoError where
  | unhandledTopic (topic : String)
  | queueFull
  | handlerErr (msg : String)
deriving DecidableEq

/-- Association-list lookup, modelling a Go `map[string]V` read.
The Router never inserts a duplicate key (Handle panics first) and the
MemoryStore erases a key before re-inserting it, so an association list
with first-match lookup is faithful to Go map semantics here. -/
def assocLookup {α : Type} : List (String × α) → String → Option α
  | [], _ => none
  | (k0, v) :: rest, k => if k0 = k then some v else assocLookup rest k

/-- Removal of all bindings of a key, used to model Go map overwrite. -/
def eraseKey {α : Type} (l : List (String × α)) (k : String) : List (String × α) :=
  l.filter (fun p => p.1 ≠ k)

/-- Router state, mirroring `Router` in router.go: a topic→handler map,
an optional fallback handler, and an optional error observer.  Only
whether the observer is set is state; its calls are returned in traces. -/
structure Router (H : Type) where
  handlers : List (String × H)
  fallback : Option H
  onErrorSet : Bool
deriving DecidableEq

/-- Lookup of the handler registered for a topic (`r.handlers[topic]`). -/
def lookupHandler {H : Type} (l : List (String × H)) (t : String) : Option H :=
  assocLookup l t

/-- Result of `Router.Handle` (router.go): Go panics on a duplicate
topic, modelled as `Except.error` carrying the panic message; on success
the updated router is returned. -/
def Router.Handle {H : Type} (r : Router H) (t : String) (h : H) :
    Except String (Router H) :=
  match lookupHandler r.handlers t with
  | some _ =>
      Except.error ("shopifywebhook: handler already registered for topic " ++ t)
  | none => Except.ok { r with handlers := r.handlers ++ [(t, h)] }

/-- Observable outcome of one `Router.Dispatch` call (router.go):
the handlers invoked (in order), the `(event, error)` pairs passed to
the error observer, and the returned error (`none` = nil). -/
structure DispatchTrace (H : Type) where
  invoked : List H
  observerCalls : List (Event × GoError)
  result : Option GoError
deriving DecidableEq

/-- Invocation of a chosen handler inside Dispatch: on handler failure
the observer (if set) is called with `(event, err)` and `err` is
returned; on success nothing else happens. -/
def runHandler {H : Type} (r : Router H) (sem : H → Event → Option GoError)
    (e : Event) (h : H) : DispatchTrace H :=
  match sem h e with
  | none => ⟨[h], [], none⟩
  | some err => ⟨[h], if r.onErrorSet then [(e, err)] else [], some err⟩

/-- `Router.Dispatch` (router.go): look the topic up; fall back to the
fallback handler when absent; with neither, return ErrUnhandledTopic
wrapped with the topic and invoke nothing. -/
def Router.Dispatch {H : Type} (r : Router H) (sem : H → Event → Option GoError)
    (e : Event) : DispatchTrace H :=
  match lookupHandler r.handlers e.metadata.topic, r.fallback with
  | some h, _ => runHandler r sem e h
  | none, some f => runHandler r sem e f
  | none, none => ⟨[], [], some (GoError.unhandledTopic e.metadata.topic)⟩

/-- The handler Dispatch will run for an event: the registered one, or
otherwise the fallback. -/
def Router.selected {H : Type} (r : Router H) (e : Event) : Option H :=
  match lookupHandler r.handlers e.metadata.topic with
  | some h => some h
  | none => r.fallback

/-- C1: For every event, Dispatch performs the topic case analysis: a
registered handler is invoked exactly (never the fallback); with no
registered handler the fallback, if set, is invoked exactly; with
neither, Dispatch returns the UnhandledTopic error and invokes no
handler at all. -/
theorem dispatch_topic_case_analysis {H : Type} (r : Router H)
    (sem : H → Event → Option GoError) (e : Event) :
    (∀ h, lookupHandler r.handlers e.metadata.topic = some h →
        (r.Dispatch sem e).invoked = [h]) ∧
    (lookupHandler r.handlers e.metadata.topic = none →
      (∀ f, r.fallback = some f → (r.Dispatch sem e).invoked = [f]) ∧
      (r.fallback = none →
        (r.Dispatch sem e).result = some (GoError.unhandledTopic e.metadata.topic) ∧
        (r.Dispatch sem e).invoked = [])) := by
  refine ⟨?_, ?_⟩
  · intro h hh
    cases hfb : r.fallback <;>
      simp [Router.Dispatch, hh, runHandler] <;>
      cases hs : sem h e <;> simp
  · intro hnone
    refine ⟨?_, ?_⟩
    · intro f hf
      simp [Router.Dispatch, hnone, hf, runHandler]
      cases hs : sem f e <;> simp
    · intro hf
      simp [Router.Dispatch, hnone, hf]

def c1Router : Router Nat :=
  { handlers := [("orders/create", 7)], fallback := none, onErrorSet := false }

def c1Sem : Nat → Event → Option GoError := fun _ _ => none

def c1Event : Event :=
  { metadata := { topic := "orders/create", hmacSHA256 := "", shopDomain := "",
                  webhookID := "", eventID := "evt-1", triggeredAt := 0,
                  apiVersion := "" },
    rawBody := [] }

/-- Witness for C1 at a concrete router: the registered handler 7 is the
one invoked. -/
theorem dispatch_topic_case_analysis_witness :
    lookupHandler c1Router.handlers c1Event.metadata.topic = some 7 ∧
    (c1Router.Dispatch c1Sem c1Event).invoked = [7] :=
  ⟨by decide, (dispatch_topic_case_analysis c1Router c1Sem c1Event).1 7 (by decide)⟩

/-- C6: When the dispatched handler (registered or fallback) fails with
error e, Dispatch invokes the configured error observer with (event, e)
before returning and returns exactly e; on handler success the observer
is not invoked and Dispatch returns success. -/
theorem dispatch_error_observer {H : Type} (r : Router H)
    (sem : H → Event → Option GoError) (e : Event) (h : H)
    (hsel : r.selected e = some h) (hobs : r.onErrorSet = true) :
    (∀ err, sem h e = some err →
      (r.Dispatch sem e).observerCalls = [(e, err)] ∧
      (r.Dispatch sem e).result = some err) ∧
    (sem h e = none →
      (r.Dispatch sem e).observerCalls = [] ∧
      (r.Dispatch sem e).result = none) := by
  have hrun : r.Dispatch sem e = runHandler r sem e h := by
    unfold Router.selected at hsel
    unfold Router.Dispatch
    cases hl : lookupHandler r.handlers e.metadata.topic with
    | some h0 =>
        rw [hl] at hsel
        cases hsel
        rfl
    | none =>
        rw [hl] at hsel
        cases hfb : r.fallback with
        | some f =>
            rw [hfb] at hsel
            cases hsel
            rfl
        | none => rw [hfb] at hsel; cases hsel
  refine ⟨?_, ?_⟩
  · intro err herr
    rw [hrun]
    simp [runHandler, herr, hobs]
  · intro hok
    rw [hrun]
    simp [runHandler, hok]

def c6Router : Router Nat :=
  { handlers := [("orders/create", 3)], fallback := none, onErrorSet := true }

def c6Sem : Nat → Event → Option GoError := fun _ _ => some (GoError.handlerErr "boom")

/-- Witness for C6 at a concrete router whose handler fails: the
observer receives the pair and the same error is returned. -/
theorem dispatch_error_observer_witness :
    c6Router.selected c1Event = some 3 ∧ c6Router.onErrorSet = true ∧
    (c6Router.Dispatch c6Sem c1Event).observerCalls =
      [(c1Event, GoError.handlerErr "boom")] ∧
    (c6Router.Dispatch c6Sem c1Event).result = some (GoError.handlerErr "boom") := by
  have h := (dispatch_error_observer c6Router c6Sem c1Event 3 (by decide) rfl).1
      (GoError.handlerErr "boom") rfl
  exact ⟨by decide, rfl, h.1, h.2⟩

/-- Lookup in an association list with a key appended at the end, when
the key was previously absent, finds the appended value. -/
theorem assocLookup_append_of_none {α : Type} (l : List (String × α)) (k : String)
    (v : α) (hl : assocLookup l k = none) :
    assocLookup (l ++ [(k, v)]) k = some v := by
  induction l with
  | nil => simp [assocLookup]
  | cons p rest ih =>
      by_cases hk : p.1 = k
      · exfalso
        simp [assocLookup, hk] at hl
      · simp only [assocLookup, List.cons_append] at hl ⊢
        rw [if_neg hk] at hl ⊢
        exact ih hl

/-- C7: Registering a second handler for an already-registered topic
fails loudly (panic, modelled as an error result), and does not
overwrite: the originally registered handler stays mapped to the topic. -/
theorem handle_duplicate_fails_loudly {H : Type} (r r1 : Router H) (t : String)
    (h0 h1 : H) (hreg : r.Handle t h0 = Except.ok r1) :
    (∃ msg, r1.Handle t h1 = Except.error msg) ∧
    lookupHandler r1.handlers t = some h0 := by
  unfold Router.Handle at hreg
  cases hl : lookupHandler r.handlers t with
  | some h2 => rw [hl] at hreg; cases hreg
  | none =>
      rw [hl] at hreg
      cases hreg
      have hfound : lookupHandler (r.handlers ++ [(t, h0)]) t = some h0 :=
        assocLookup_append_of_none r.handlers t h0 hl
      refine ⟨⟨"shopifywebhook: handler already registered for topic " ++ t, ?_⟩, hfound⟩
      unfold Router.Handle
      rw [hfound]

/-- Witness for C7: an empty router accepts the first registration for
a topic; the second registration for the same topic errors out and the
first handler remains registered. -/
theorem handle_duplicate_fails_loudly_witness :
    (Router.Handle { handlers := [], fallback := none, onErrorSet := false } "orders/create" 7 =
      Except.ok c1Router) ∧
    (∃ msg, c1Router.Handle "orders/create" 8 = Except.error msg) ∧
    lookupHandler c1Router.handlers "orders/create" = some 7 := by
  have h := handle_duplicate_fails_loudly
      { handlers := [], fallback := none, onErrorSet := false } c1Router
      "orders/create" 7 8 (by rfl)
  exact ⟨by rfl, h.1, h.2⟩

/-- In-memory idempotency store, mirroring `MemoryStore` in the store
source file: a map from event ID to the instant it was recorded, plus
the configured TTL.  Instants and durations are integers (nanoseconds
in the Go reference); the current time is passed explicitly where Go
calls `time.Now` or `time.Since`. -/
structure MemoryStore where
  entries : List (String × Int)
  ttl : Int
deriving DecidableEq

/-- `MemoryStore.Exists` at current time `now`: absent keys and keys
whose age strictly exceeds the TTL report false; everything else true.
The error component is always nil, as in the source. -/
def MemoryStore.Exists (s : MemoryStore) (now : Int) (eventID : String) :
    Bool × Option GoError :=
  match assocLookup s.entries eventID with
  | none => (false, none)
  | some ts => if s.ttl < now - ts then (false, none) else (true, none)

/-- `MemoryStore.Store` at current time `now`: records the event ID with
the current timestamp, overwriting any prior timestamp (Go map
assignment); returns nil error. -/
def MemoryStore.Store (s : MemoryStore) (now : Int) (eventID : String) :
    MemoryStore × Option GoError :=
  ({ s with entries := (eventID, now) :: eraseKey s.entries eventID }, none)

/-- One pass of the background cleanup goroutine at time `now`: deletes
every entry strictly older than the TTL. -/
def MemoryStore.sweep (s : MemoryStore) (now : Int) : MemoryStore :=
  { s with entries := s.entries.filter (fun p => ¬ s.ttl < now - p.2) }

/-- A key erased from an association list is no longer found. -/
theorem assocLookup_eraseKey_self {α : Type} (l : List (String × α)) (k : String) :
    assocLookup (eraseKey l k) k = none := by
  induction l with
  | nil => rfl
  | cons p rest ih =>
      by_cases hk : p.1 = k
      · simpa [eraseKey, hk] using ih
      · simpa [eraseKey, assocLookup, hk] using ih

/-- Filtering an association list cannot make an absent key present. -/
theorem assocLookup_filter_of_none {α : Type} (l : List (String × α)) (k : String)
    (p : String × α → Bool) (hl : assocLookup l k = none) :
    assocLookup (l.filter p) k = none := by
  induction l with
  | nil => rfl
  | cons q rest ih =>
      by_cases hk : q.1 = k
      · exfalso
        simp [assocLookup, hk] at hl
      · simp only [assocLookup, if_neg hk] at hl
        by_cases hp : p q
        · simpa [List.filter, hp, assocLookup, hk] using ih hl
        · simpa [List.filter, hp] using ih hl

/-- C4 (amended): after `Store(id)` at time t, `Exists(id)` at time
`now` is true iff the elapsed time `now - t` is at most the TTL (the
code keeps the entry alive at elapsed = TTL exactly, which is where the
original "less than TTL" phrasing fails); in particular an immediate
lookup is true, a lookup after the TTL has strictly elapsed is false,
and a cleanup sweep run at any time `t0 ≤ now` never changes the answer
of a later lookup. -/
theorem exists_of_lookup_some (entries : List (String × Int)) (ttl now : Int)
    (id : String) (ts : Int) (hl : assocLookup entries id = some ts) :
    MemoryStore.Exists ⟨entries, ttl⟩ now id =
      if ttl < now - ts then (false, none) else (true, none) := by
  unfold MemoryStore.Exists
  rw [hl]

theorem exists_of_lookup_none (entries : List (String × Int)) (ttl now : Int)
    (id : String) (hl : assocLookup entries id = none) :
    MemoryStore.Exists ⟨entries, ttl⟩ now id = (false, none) := by
  unfold MemoryStore.Exists
  rw [hl]

theorem memstore_ttl_window (s : MemoryStore) (t now : Int) (id : String)
    (httl : 0 ≤ s.ttl) :
    ((((s.Store t id).1).Exists now id).1 = true ↔ now - t ≤ s.ttl) ∧
    ((s.Store t id).1).Exists t id = (true, none) ∧
    (s.ttl < now - t → (((s.Store t id).1).Exists now id) = (false, none)) ∧
    (∀ t0, t0 ≤ now →
      (((s.Store t id).1).sweep t0).Exists now id = ((s.Store t id).1).Exists now id) := by
  have hst : (s.Store t id).1 = ⟨(id, t) :: eraseKey s.entries id, s.ttl⟩ := rfl
  have hlook : assocLookup ((id, t) :: eraseKey s.entries id) id = some t := by
    simp [assocLookup]
  have hex : ∀ n : Int, ((s.Store t id).1).Exists n id =
      if s.ttl < n - t then (false, none) else (true, none) := by
    intro n
    rw [hst]
    exact exists_of_lookup_some _ _ n id t hlook
  refine ⟨?_, ?_, ?_, ?_⟩
  · rw [hex now]
    by_cases hle : s.ttl < now - t
    · rw [if_pos hle]
      constructor
      · intro hfalse; cases hfalse
      · intro hle2; omega
    · rw [if_neg hle]
      constructor
      · intro _; omega
      · intro _; rfl
  · rw [hex t, if_neg (by omega)]
  · intro hexp
    rw [hex now, if_pos hexp]
  · intro t0 ht0
    have hsw : ((s.Store t id).1).sweep t0 =
        ⟨((id, t) :: eraseKey s.entries id).filter
            (fun p => decide (¬ s.ttl < t0 - p.2)), s.ttl⟩ := by
      rw [hst]; rfl
    by_cases hkeep : s.ttl < t0 - t
    · have hpred : (decide (¬ s.ttl < t0 - ((id, t) : String × Int).2)) = false := by
        simp [hkeep]
      have hgone :
          assocLookup (((id, t) :: eraseKey s.entries id).filter
            (fun p => decide (¬ s.ttl < t0 - p.2))) id = none := by
        rw [List.filter_cons, hpred]
        simp only [Bool.false_eq_true, if_false]
        exact assocLookup_filter_of_none _ _ _ (assocLookup_eraseKey_self s.entries id)
      rw [hsw, exists_of_lookup_none _ _ now id hgone, hex now, if_pos (by omega)]
    · have hpred : (decide (¬ s.ttl < t0 - ((id, t) : String × Int).2)) = true := by
        simp [hkeep]
      have hkept :
          assocLookup (((id, t) :: eraseKey s.entries id).filter
            (fun p => decide (¬ s.ttl < t0 - p.2))) id = some t := by
        rw [List.filter_cons, hpred]
        simp [assocLookup]
      rw [hsw, exists_of_lookup_some _ _ now id t hkept, hex now]

/-- Witness for C4 at a concrete store with TTL 10: immediately true,
false at elapsed 11, and unchanged by a sweep at time 5. -/
theorem memstore_ttl_window_witness :
    (0 : Int) ≤ (10 : Int) ∧
    (((MemoryStore.mk [] 10).Store 0 "evt").1).Exists 0 "evt" = (true, none) ∧
    (((MemoryStore.mk [] 10).Store 0 "evt").1).Exists 11 "evt" = (false, none) ∧
    ((((MemoryStore.mk [] 10).Store 0 "evt").1).sweep 5).Exists 11 "evt" =
      (((MemoryStore.mk [] 10).Store 0 "evt").1).Exists 11 "evt" := by
  have h1 := memstore_ttl_window (MemoryStore.mk [] 10) 0 0 "evt" (by decide)
  have h2 := memstore_ttl_window (MemoryStore.mk [] 10) 0 11 "evt" (by decide)
  exact ⟨by decide, h1.2.1, h2.2.2.1 (by decide), h2.2.2.2 5 (by decide)⟩

/-- Counterexample for C4 as stated: with TTL 10, an entry stored at
time 0 and looked up at time 10 — elapsed time exactly equal to the
TTL, hence not recorded less than TTL ago — still reports true, because
the code expires only entries with age strictly greater than the TTL. -/
theorem memstore_ttl_boundary_counterexample :
    ((((MemoryStore.mk [] 10).Store 0 "evt").1).Exists 10 "evt").1 = true ∧
    ¬ ((10 : Int) - 0 < 10) := by
  exact ⟨by decide, by decide⟩

/-- Two's-complement wraparound of a mathematical integer into a signed
64-bit value, modelling Go int64 (and `time.Duration`) multiplication
overflow. -/
def wrap64 (x : Int) : Int := (x + 2 ^ 63) % 2 ^ 64 - 2 ^ 63

/-- The delay computed by processWithRetry for a failing attempt:
`wp.baseDelay * time.Duration(math.Pow(2, float64(attempt)))`.  For
attempts up to 62, `math.Pow(2, attempt)` is an exact power of two that
converts exactly to int64, so the computation is the int64 product
`baseDelay * 2^attempt`, wrapping on overflow. -/
def backoffDelay (base : Int) (attempt : Nat) : Int :=
  wrap64 (base * 2 ^ attempt)

/-- Observable outcome of `processWithRetry` for one work item: how
many times `router.Dispatch` ran, the successive sleep durations
(nanoseconds, as computed — a nonpositive value makes `time.Sleep`
return immediately), and the errors handed to the pool error observer. -/
structure RetryTrace where
  dispatchCount : Nat
  sleeps : List Int
  observerCalls : List GoError
deriving DecidableEq

/-- The retry loop of `processWithRetry`, from iteration `attempt` with
`remaining` further iterations allowed after this one (the Go loop runs
`attempt` from 0 through maxRetries).  `results i` is the error
returned by the dispatch performed on attempt `i` (`none` = success);
dispatch is abstracted this way because the Go handler may be stateful
across attempts. -/
def retryAux (results : Nat → Option GoError) (base : Int) (onErrorSet : Bool) :
    Nat → Nat → RetryTrace
  | attempt, 0 =>
    match results attempt with
    | none => ⟨1, [], []⟩
    | some err => ⟨1, [], if onErrorSet then [err] else []⟩
  | attempt, remaining + 1 =>
    match results attempt with
    | none => ⟨1, [], []⟩
    | some _ =>
      let rest := retryAux results base onErrorSet (attempt + 1) remaining
      ⟨rest.dispatchCount + 1, backoffDelay base attempt :: rest.sleeps,
       rest.observerCalls⟩

/-- `processWithRetry` with max retries `maxRetries`: runs attempts
0 through `maxRetries`, stopping at the first success; sleeps with
exponential backoff between failing attempts; reports the final error
to the observer (when set) once retries are exhausted. -/
def processWithRetry (maxRetries : Nat) (base : Int) (onErrorSet : Bool)
    (results : Nat → Option GoError) : RetryTrace :=
  retryAux results base onErrorSet 0 maxRetries

/-- Worker pool configuration, mirroring `workerPoolConfig` plus the
defaults installed by `NewWorkerPool` before options are applied:
nil error handler, 0 retries, 500ms (500000000 ns) base delay. -/
structure PoolConfig where
  onErrorSet : Bool
  maxRetries : Nat
  baseDelay : Int
deriving DecidableEq

/-- `NewWorkerPool` configuration assembly: the defaults, then each
option applied in order. -/
def NewWorkerPool (opts : List (PoolConfig → PoolConfig)) : PoolConfig :=
  opts.foldl (fun c o => o c) ⟨false, 0, 500000000⟩

/-- The `WithMaxRetries` worker pool option. -/
def WithMaxRetries (n : Nat) (c : PoolConfig) : PoolConfig :=
  { c with maxRetries := n }

/-- The `WithRetryBaseDelay` worker pool option. -/
def WithRetryBaseDelay (d : Int) (c : PoolConfig) : PoolConfig :=
  { c with baseDelay := d }

/-- If every attempt from `attempt` through `attempt + rem` fails, the
loop dispatches `rem + 1` times, sleeps after each non-final failure,
and reports the final error to the observer when one is set. -/
theorem retryAux_all_fail (results : Nat → Option GoError) (base : Int)
    (obs : Bool) (rem : Nat) :
    ∀ attempt : Nat, (∀ i, i ≤ rem → (results (attempt + i)).isSome = true) →
    ∃ err, results (attempt + rem) = some err ∧
      retryAux results base obs attempt rem =
        ⟨rem + 1, (List.range rem).map (fun i => backoffDelay base (attempt + i)),
         if obs then [err] else []⟩ := by
  induction rem with
  | zero =>
      intro attempt h
      have h0 := h 0 (Nat.le_refl 0)
      rw [Nat.add_zero] at h0
      cases hr : results attempt with
      | none => rw [hr] at h0; simp at h0
      | some err =>
          refine ⟨err, by simpa using hr, ?_⟩
          simp [retryAux, hr]
  | succ n ih =>
      intro attempt h
      have h0 := h 0 (Nat.zero_le _)
      rw [Nat.add_zero] at h0
      cases hr : results attempt with
      | none => rw [hr] at h0; simp at h0
      | some e0 =>
          have hshift : ∀ i, i ≤ n → (results (attempt + 1 + i)).isSome = true := by
            intro i hi
            have := h (i + 1) (Nat.succ_le_succ hi)
            simpa [Nat.add_assoc, Nat.add_comm 1 i] using this
          obtain ⟨err, herr, hrec⟩ := ih (attempt + 1) hshift
          have hmap : (List.range (n + 1)).map (fun i => backoffDelay base (attempt + i)) =
              backoffDelay base attempt ::
                (List.range n).map (fun i => backoffDelay base (attempt + 1 + i)) := by
            rw [List.range_succ_eq_map, List.map_cons, List.map_map]
            simp only [Function.comp_def, Nat.add_zero]
            congr 1
            apply List.map_congr_left
            intro a _
            congr 1
            omega
          refine ⟨err, ?_, ?_⟩
          · simpa [Nat.add_assoc, Nat.add_comm 1 n] using herr
          · simp only [retryAux, hr, hrec, hmap]

/-- If the first success is on iteration `attempt + j` with `j` within
the allowed iterations, the loop dispatches `j + 1` times, sleeps after
each of the `j` failures, and never calls the observer. -/
theorem retryAux_first_success (results : Nat → Option GoError) (base : Int)
    (obs : Bool) (j : Nat) :
    ∀ attempt rem : Nat, j ≤ rem → results (attempt + j) = none →
    (∀ i, i < j → (results (attempt + i)).isSome = true) →
    retryAux results base obs attempt rem =
      ⟨j + 1, (List.range j).map (fun i => backoffDelay base (attempt + i)), []⟩ := by
  induction j with
  | zero =>
      intro attempt rem _ hsucc _
      rw [Nat.add_zero] at hsucc
      cases rem with
      | zero => simp [retryAux, hsucc]
      | succ n => simp [retryAux, hsucc]
  | succ m ih =>
      intro attempt rem hj hsucc hfail
      cases rem with
      | zero => omega
      | succ n =>
          have h0 := hfail 0 (Nat.succ_pos m)
          rw [Nat.add_zero] at h0
          cases hr : results attempt with
          | none => rw [hr] at h0; simp at h0
          | some e0 =>
              have hrec := ih (attempt + 1) n (Nat.le_of_succ_le_succ hj)
                (by simpa [Nat.add_assoc, Nat.add_comm 1 m] using hsucc)
                (by
                  intro i hi
                  have := hfail (i + 1) (Nat.succ_lt_succ hi)
                  simpa [Nat.add_assoc, Nat.add_comm 1 i] using this)
              have hmap : (List.range (m + 1)).map (fun i => backoffDelay base (attempt + i)) =
                  backoffDelay base attempt ::
                    (List.range m).map (fun i => backoffDelay base (attempt + 1 + i)) := by
                rw [List.range_succ_eq_map, List.map_cons, List.map_map]
                simp only [Function.comp_def, Nat.add_zero]
                congr 1
                apply List.map_congr_left
                intro a _
                congr 1
                omega
              simp only [retryAux, hr, hrec, hmap]

/-- C2: With max retries R and a handler first succeeding on attempt K
(attempts numbered from 1; for an always-failing handler instantiate
any K > R + 1), the handler is invoked exactly min K (R+1) times; the
error observer receives exactly the final failure when K > R + 1 and
nothing when the handler succeeds within the allowed attempts. -/
theorem retry_invocation_counts (R : Nat) (base : Int)
    (results : Nat → Option GoError) (K : Nat) (hK : 1 ≤ K)
    (hfail : ∀ i, i + 1 < K → (results i).isSome = true)
    (hsucc : K ≤ R + 1 → results (K - 1) = none) :
    (processWithRetry R base true results).dispatchCount = min K (R + 1) ∧
    (R + 1 < K → ∃ err, results R = some err ∧
        (processWithRetry R base true results).observerCalls = [err]) ∧
    (K ≤ R + 1 → (processWithRetry R base true results).observerCalls = []) := by
  by_cases hle : K ≤ R + 1
  · have hj : K - 1 ≤ R := by omega
    have hrun := retryAux_first_success results base true (K - 1) 0 R hj
      (by simpa using hsucc hle)
      (by
        intro i hi
        have := hfail i (by omega)
        simpa using this)
    have hcount : (processWithRetry R base true results).dispatchCount = K := by
      unfold processWithRetry
      rw [hrun]
      show K - 1 + 1 = K
      omega
    refine ⟨?_, ?_, ?_⟩
    · rw [hcount, Nat.min_eq_left hle]
    · intro hgt; omega
    · intro _
      unfold processWithRetry
      rw [hrun]
  · have hgt : R + 1 < K := by omega
    obtain ⟨err, herr, hrun⟩ := retryAux_all_fail results base true R 0
      (by
        intro i hi
        have := hfail i (by omega)
        simpa using this)
    rw [Nat.zero_add] at herr
    refine ⟨?_, ?_, ?_⟩
    · unfold processWithRetry
      rw [hrun]
      show R + 1 = min K (R + 1)
      rw [Nat.min_eq_right (by omega)]
    · intro _
      refine ⟨err, herr, ?_⟩
      unfold processWithRetry
      rw [hrun]
      rfl
    · intro hle2; omega

def c2Results : Nat → Option GoError := fun i =>
  if i < 2 then some (GoError.handlerErr "transient failure") else none

/-- Witness for C2 mirroring the repository's retry test: max retries 3,
success on the third attempt — three dispatches, no observer call. -/
theorem retry_invocation_counts_witness :
    (1 ≤ 3) ∧
    (processWithRetry 3 10000000 true c2Results).dispatchCount = min 3 (3 + 1) ∧
    (processWithRetry 3 10000000 true c2Results).observerCalls = [] := by
  have h := retry_invocation_counts 3 10000000 c2Results 3 (by decide)
    (by
      intro i hi
      show (if i < 2 then some (GoError.handlerErr "transient failure") else none).isSome = true
      rw [if_pos (by omega)]
      rfl)
    (by intro _; decide)
  exact ⟨by decide, h.1, h.2.2 (by decide)⟩

/-- If attempts `attempt` through `attempt + n` all fail and more
iterations remain, the n-th recorded sleep is the backoff delay for
iteration `attempt + n`. -/
theorem retryAux_sleep_get (results : Nat → Option GoError) (base : Int)
    (obs : Bool) (n : Nat) :
    ∀ attempt rem : Nat, n < rem →
    (∀ i, i ≤ n → (results (attempt + i)).isSome = true) →
    (retryAux results base obs attempt rem).sleeps.get? n =
      some (backoffDelay base (attempt + n)) := by
  induction n with
  | zero =>
      intro attempt rem hrem hfail
      have h0 := hfail 0 (Nat.le_refl 0)
      rw [Nat.add_zero] at h0
      cases rem with
      | zero => omega
      | succ r =>
          cases hr : results attempt with
          | none => rw [hr] at h0; simp at h0
          | some e0 => simp [retryAux, hr]
  | succ m ih =>
      intro attempt rem hrem hfail
      have h0 := hfail 0 (Nat.zero_le _)
      rw [Nat.add_zero] at h0
      cases rem with
      | zero => omega
      | succ r =>
          cases hr : results attempt with
          | none => rw [hr] at h0; simp at h0
          | some e0 =>
              have hrec := ih (attempt + 1) r (by omega)
                (by
                  intro i hi
                  have := hfail (i + 1) (Nat.succ_le_succ hi)
                  simpa [Nat.add_assoc, Nat.add_comm 1 i] using this)
              have : (retryAux results base obs attempt (r + 1)).sleeps.get? (m + 1) =
                  (retryAux results base obs (attempt + 1) r).sleeps.get? m := by
                simp [retryAux, hr]
              rw [this, hrec]
              congr 2
              omega

/-- Wraparound is the identity on values that fit in int64. -/
theorem wrap64_eq_self (x : Int) (h1 : 0 ≤ x) (h2 : x < 2 ^ 63) : wrap64 x = x := by
  have p63 : (2 : Int) ^ 63 = 9223372036854775808 := by norm_num
  have p64 : (2 : Int) ^ 64 = 18446744073709551616 := by norm_num
  unfold wrap64
  rw [p63, p64]
  rw [p63] at h2
  omega

/-- C9 (amended): when dispatch fails on retry attempt n (numbered from
0) with n below the configured max retries, the worker sleeps exactly
baseDelay * 2^n before the next attempt, provided the product fits in a
signed 64-bit nanosecond count — the computed delay is the wrapped
64-bit product, and a wrapped-negative delay makes `time.Sleep` return
at once.  The default base delay is 500000000 ns (500ms) and the
default max retries is 0, so by default there is a single dispatch and
no sleep. -/
theorem backoff_schedule (R n : Nat) (base : Int)
    (results : Nat → Option GoError) (hbase : 0 ≤ base)
    (hfit : base * 2 ^ n < 2 ^ 63) (hn : n < R)
    (hfail : ∀ i, i ≤ n → (results i).isSome = true) :
    (processWithRetry R base true results).sleeps.get? n = some (base * 2 ^ n) ∧
    (NewWorkerPool []).baseDelay = 500000000 ∧
    (NewWorkerPool []).maxRetries = 0 ∧
    (∀ res : Nat → Option GoError, ∀ b : Int,
      (processWithRetry 0 b true res).sleeps = [] ∧
      (processWithRetry 0 b true res).dispatchCount = 1) := by
  refine ⟨?_, rfl, rfl, ?_⟩
  · have hget := retryAux_sleep_get results base true n 0 R hn
      (by
        intro i hi
        have := hfail i hi
        simpa using this)
    unfold processWithRetry
    rw [hget]
    rw [Nat.zero_add]
    unfold backoffDelay
    rw [wrap64_eq_self (base * 2 ^ n) (by positivity) hfit]
  · intro res b
    unfold processWithRetry retryAux
    cases hr : res 0 <;> simp [hr]

def c9Results : Nat → Option GoError := fun _ => some (GoError.handlerErr "fail")

/-- Witness for C9 with the default 500ms base delay and max retries 3:
the sleep after the first failing attempt is exactly 500ms. -/
theorem backoff_schedule_witness :
    (0 : Int) ≤ 500000000 ∧
    (500000000 : Int) * 2 ^ 0 < 2 ^ 63 ∧
    (processWithRetry 3 500000000 true c9Results).sleeps.get? 0 =
      some (500000000 * 2 ^ 0) := by
  have h := backoff_schedule 3 0 500000000 c9Results (by norm_num) (by norm_num)
    (by norm_num) (by intro i hi; rfl)
  exact ⟨by norm_num, by norm_num, h.1⟩

/-- Counterexample for C9 as stated: with the default 500ms base delay
and max retries 36, the delay before the retry following a failure on
attempt 35 is the wrapped int64 product -1266874889709551616 ns — a
negative duration, slept not at all — and not the claimed
baseDelay * 2^35 = 17179869184000000000 ns. -/
theorem backoff_overflow_counterexample :
    (processWithRetry 36 500000000 true c9Results).sleeps.get? 35 =
      some (-1266874889709551616) ∧
    (-1266874889709551616 : Int) ≠ 500000000 * 2 ^ 35 ∧
    (-1266874889709551616 : Int) < 0 := by
  refine ⟨by decide, by decide, by decide⟩

/-- Runtime state of a WorkerPool relevant to Submit and Shutdown: the
buffered channel contents and capacity, the `closing` atomic flag that
Shutdown sets, whether the channel has been closed, and whether an
error observer is configured. -/
structure WorkerPoolState where
  queue : List Event
  queueSize : Nat
  closing : Bool
  closed : Bool
  onErrorSet : Bool
deriving DecidableEq

/-- Outcome of one `Submit` call: the resulting pool state, the
`(event, error)` pairs passed to the error observer, and whether the
call panicked.  A Go `select` whose send case targets a closed channel
panics even when a `default` branch is present, because the closed
channel counts as ready; Submit reads neither `closing` nor any other
guard before the select. -/
structure SubmitResult where
  state : WorkerPoolState
  observerCalls : List (Event × GoError)
  panicked : Bool
deriving DecidableEq

/-- `WorkerPool.Submit`: non-blocking enqueue via select; on a full
(open) queue the event is dropped and the observer, if set, receives
ErrQueueFull; on a closed queue the send case panics. -/
def WorkerPoolState.Submit (wp : WorkerPoolState) (e : Event) : SubmitResult :=
  if wp.closed = true then
    { state := wp, observerCalls := [], panicked := true }
  else if wp.queue.length < wp.queueSize then
    { state := { wp with queue := wp.queue ++ [e] }, observerCalls := [],
      panicked := false }
  else
    { state := wp,
      observerCalls := if wp.onErrorSet then [(e, GoError.queueFull)] else [],
      panicked := false }

/-- `WorkerPool.Shutdown` as far as Submit can observe it: stores true
into the `closing` flag, then closes the queue channel (the subsequent
drain/deadline race does not change these fields). -/
def WorkerPoolState.Shutdown (wp : WorkerPoolState) : WorkerPoolState :=
  { wp with closing := true, closed := true }

/-- C5: A Submit against a full (open) queue does not enqueue the event
— the queue and the rest of the pool state are unchanged, so the event
is neither processed later nor retried — does not panic (the select
falls to its default branch, hence never blocks), and invokes the
configured error observer exactly once with ErrQueueFull. -/
theorem submit_queue_full_drops (wp : WorkerPoolState) (e : Event)
    (hopen : wp.closed = false) (hfull : wp.queueSize ≤ wp.queue.length)
    (hobs : wp.onErrorSet = true) :
    (wp.Submit e).state = wp ∧
    (wp.Submit e).observerCalls = [(e, GoError.queueFull)] ∧
    (wp.Submit e).panicked = false := by
  unfold WorkerPoolState.Submit
  rw [hopen]
  rw [if_neg (by simp)]
  rw [if_neg (by omega)]
  rw [hobs]
  exact ⟨rfl, rfl, rfl⟩

def c5Pool : WorkerPoolState :=
  { queue := [c1Event], queueSize := 1, closing := false, closed := false,
    onErrorSet := true }

/-- Witness for C5: a pool with capacity 1 and one queued event drops a
second submission, reporting it once as ErrQueueFull. -/
theorem submit_queue_full_drops_witness :
    c5Pool.closed = false ∧ c5Pool.queueSize ≤ c5Pool.queue.length ∧
    (c5Pool.Submit c1Event).state = c5Pool ∧
    (c5Pool.Submit c1Event).observerCalls = [(c1Event, GoError.queueFull)] ∧
    (c5Pool.Submit c1Event).panicked = false := by
  have h := submit_queue_full_drops c5Pool c1Event rfl (by decide) rfl
  exact ⟨rfl, by decide, h.1, h.2.1, h.2.2⟩

/-- C8 (code bug evidence): after Shutdown, every Submit panics — the
select sends on the now-closed channel, which panics even with the
default branch present — while the `closing` flag that Shutdown set
(and which Submit never consults) sits at true.  The event is neither
enqueued nor reported to the observer as dropped. -/
theorem submit_after_shutdown_panics (wp : WorkerPoolState) (e : Event) :
    ((wp.Shutdown).Submit e).panicked = true ∧
    (wp.Shutdown).closing = true ∧
    ((wp.Shutdown).Submit e).state.queue = wp.queue ∧
    ((wp.Shutdown).Submit e).observerCalls = [] := by
  unfold WorkerPoolState.Shutdown WorkerPoolState.Submit
  simp

/-- The `IdempotencyStore` interface over a backing-state type: Exists
returns a (found, error) pair, Store returns the updated state and an
error; both errors may be non-nil for arbitrary backends. -/
structure IdempotencyStore (σ : Type) where
  existsCheck : σ → String → Bool × Option GoError
  store : σ → String → σ × Option GoError

/-- The MemoryStore as an IdempotencyStore at a given current time. -/
def memOpsAt (now : Int) : IdempotencyStore MemoryStore :=
  { existsCheck := fun s id => s.Exists now id
    store := fun s id => s.Store now id }

/-- Observable outcome of one pass through the orchestrating `Handler`
(middleware.go) after verification and metadata parsing succeeded:
whether 200 was written, whether the dedup check short-circuited, the
dispatch trace (synchronous path) or submit result (asynchronous path),
whether Store was called, and the resulting dedup-store state and pool
state. -/
structure OrchResult (H σ : Type) where
  responded : Bool
  skipped : Bool
  dispatchTrace : Option (DispatchTrace H)
  submitResult : Option SubmitResult
  storeCalled : Bool
  store : σ
  pool : WorkerPoolState

/-- The orchestrator sequence of `Handler` (middleware.go): when a
dedup store is configured and Exists succeeds reporting a duplicate,
respond 200 and stop; otherwise respond 200, dispatch synchronously or
submit to the pool, then — when a dedup store is configured — call
Store regardless of the dispatch or submit outcome (its error is
discarded with a blank assignment in the source). -/
def HandlerStep {H σ : Type} (r : Router H) (sem : H → Event → Option GoError)
    (ds : IdempotencyStore σ) (dedupSet asyncSet : Bool) (s : σ)
    (wp : WorkerPoolState) (e : Event) : OrchResult H σ :=
  if dedupSet = true ∧ (ds.existsCheck s e.metadata.eventID).2 = none ∧
      (ds.existsCheck s e.metadata.eventID).1 = true then
    { responded := true, skipped := true, dispatchTrace := none,
      submitResult := none, storeCalled := false, store := s, pool := wp }
  else
    { responded := true, skipped := false,
      dispatchTrace := if asyncSet = true then none else some (r.Dispatch sem e),
      submitResult := if asyncSet = true then some (wp.Submit e) else none,
      storeCalled := dedupSet,
      store := if dedupSet = true then (ds.store s e.metadata.eventID).1 else s,
      pool := if asyncSet = true then (wp.Submit e).state else wp }

/-- Number of Router handler invocations an orchestrator pass caused on
the synchronous path. -/
def invokedCount {H σ : Type} (res : OrchResult H σ) : Nat :=
  match res.dispatchTrace with
  | some dt => dt.invoked.length
  | none => 0

def scStore0 : MemoryStore := { entries := [], ttl := 3600 }

def scPool : WorkerPoolState :=
  { queue := [], queueSize := 0, closing := false, closed := false,
    onErrorSet := false }

/-- First of two sequential same-event-ID orchestrator passes, at time 0. -/
def scStep1 : OrchResult Nat MemoryStore :=
  HandlerStep c1Router c1Sem (memOpsAt 0) true false scStore0 scPool c1Event

/-- Second pass with the identical event, one time unit later, against
the store state left by the first pass. -/
def scStep2 : OrchResult Nat MemoryStore :=
  HandlerStep c1Router c1Sem (memOpsAt 1) true false scStep1.store scPool c1Event

/-- C3: With a dedup store configured, the orchestrator skips iff the
Exists check succeeds and reports a duplicate — responding success and
doing nothing further — while an Exists error means the event is
processed anyway; and two sequential dispatches of events with the same
event ID (within TTL, store error-free) cause exactly one Router
invocation. -/
theorem orchestrator_dedup_behaviour {H σ : Type} (r : Router H)
    (sem : H → Event → Option GoError) (ds : IdempotencyStore σ) (s : σ)
    (wp : WorkerPoolState) (e : Event) (asyncSet : Bool) :
    (ds.existsCheck s e.metadata.eventID = (true, none) →
      HandlerStep r sem ds true asyncSet s wp e =
        { responded := true, skipped := true, dispatchTrace := none,
          submitResult := none, storeCalled := false, store := s, pool := wp }) ∧
    (∀ b err, ds.existsCheck s e.metadata.eventID = (b, some err) →
      (HandlerStep r sem ds true asyncSet s wp e).skipped = false ∧
      (HandlerStep r sem ds true asyncSet s wp e).storeCalled = true ∧
      (asyncSet = false →
        (HandlerStep r sem ds true asyncSet s wp e).dispatchTrace =
          some (r.Dispatch sem e))) ∧
    (invokedCount scStep1 + invokedCount scStep2 = 1) := by
  refine ⟨?_, ?_, by decide⟩
  · intro h
    unfold HandlerStep
    rw [if_pos ⟨rfl, by rw [h], by rw [h]⟩]
  · intro b err h
    have hneg : ¬ ((true : Bool) = true ∧
        (ds.existsCheck s e.metadata.eventID).2 = none ∧
        (ds.existsCheck s e.metadata.eventID).1 = true) := by
      intro hc
      rw [h] at hc
      cases hc.2.1
    unfold HandlerStep
    rw [if_neg hneg]
    refine ⟨rfl, rfl, ?_⟩
    intro ha
    rw [ha]
    rfl

def c3Store : MemoryStore := { entries := [("evt-1", 0)], ttl := 3600 }

/-- Witness for C3: against a store already holding the event ID within
TTL, the orchestrator pass short-circuits completely. -/
theorem orchestrator_dedup_behaviour_witness :
    (memOpsAt 1).existsCheck c3Store "evt-1" = (true, none) ∧
    HandlerStep c1Router c1Sem (memOpsAt 1) true false c3Store scPool c1Event =
      { responded := true, skipped := true, dispatchTrace := none,
        submitResult := none, storeCalled := false, store := c3Store,
        pool := scPool } :=
  ⟨by decide,
   (orchestrator_dedup_behaviour c1Router c1Sem (memOpsAt 1) c3Store scPool
      c1Event false).1 (by decide)⟩

/-- C10: For every non-duplicate event with a dedup store configured,
Store is called on the event ID unconditionally on the outcome of the
dispatch or submission step — the synchronous dispatch trace and the
asynchronous submit outcome are whatever the Router or pool produced,
error or not, and the store update happens regardless. -/
theorem store_marked_unconditionally {H σ : Type} (r : Router H)
    (sem : H → Event → Option GoError) (ds : IdempotencyStore σ) (s : σ)
    (wp : WorkerPoolState) (e : Event) (asyncSet : Bool)
    (hproceed : ¬ ((ds.existsCheck s e.metadata.eventID).2 = none ∧
        (ds.existsCheck s e.metadata.eventID).1 = true)) :
    (HandlerStep r sem ds true asyncSet s wp e).storeCalled = true ∧
    (HandlerStep r sem ds true asyncSet s wp e).store =
      (ds.store s e.metadata.eventID).1 ∧
    (asyncSet = false →
      (HandlerStep r sem ds true asyncSet s wp e).dispatchTrace =
        some (r.Dispatch sem e)) ∧
    (asyncSet = true →
      (HandlerStep r sem ds true asyncSet s wp e).submitResult =
        some (wp.Submit e)) := by
  have hneg : ¬ ((true : Bool) = true ∧
      (ds.existsCheck s e.metadata.eventID).2 = none ∧
      (ds.existsCheck s e.metadata.eventID).1 = true) := by
    intro hc
    exact hproceed hc.2
  unfold HandlerStep
  rw [if_neg hneg]
  refine ⟨rfl, rfl, ?_, ?_⟩
  · intro ha; rw [ha]; rfl
  · intro ha; rw [ha]; rfl

/-- Witness for C10 at the two outcomes the claim singles out: a
synchronous pass whose handler fails still updates the store, and an
asynchronous pass whose submission is dropped with ErrQueueFull still
updates the store. -/
theorem store_marked_unconditionally_witness :
    ((HandlerStep c6Router c6Sem (memOpsAt 0) true false scStore0 scPool
        c1Event).storeCalled = true ∧
     (HandlerStep c6Router c6Sem (memOpsAt 0) true false scStore0 scPool
        c1Event).dispatchTrace = some (c6Router.Dispatch c6Sem c1Event) ∧
     (c6Router.Dispatch c6Sem c1Event).result = some (GoError.handlerErr "boom")) ∧
    ((HandlerStep c1Router c1Sem (memOpsAt 0) true true scStore0 c5Pool
        c1Event).storeCalled = true ∧
     (HandlerStep c1Router c1Sem (memOpsAt 0) true true scStore0 c5Pool
        c1Event).submitResult = some (c5Pool.Submit c1Event) ∧
     (c5Pool.Submit c1Event).observerCalls = [(c1Event, GoError.queueFull)]) := by
  have h1 := store_marked_unconditionally c6Router c6Sem (memOpsAt 0) scStore0
    scPool c1Event false (by decide)
  have h2 := store_marked_unconditionally c1Router c1Sem (memOpsAt 0) scStore0
    c5Pool c1Event true (by decide)
  exact ⟨⟨h1.1, h1.2.2.1 rfl, by decide⟩, ⟨h2.1, h2.2.2.2 rfl, by decide⟩⟩

end ShopifyWebhook
